import Mathlib

set_option linter.all false

/-!
Shallow embedding of `src/server.js` (emergency-room admission scheduler):
severity helpers, prescription generation, CSV serialization, the resource
pool, the scheduler state and its operations.

Modelling conventions: JS numbers are embedded as `Int` (on these code paths
the program computes only integer values); JS strings as `String`; the patient
`Map` as an association list updated in place.  In the JS program the objects
stored in `waitingQueue` alias the objects stored in `patientRecords`; since
the code reads only the fields `id`, `severity`, `requiresVentilator` and
`sequence` from queue entries — fields that are never mutated after
registration — the embedding can store an immutable snapshot in the queue and
route every mutable-field access through the registry without changing any
observable behaviour.  File persistence (`savePatientsToFile`,
`Resources.saveToFile`) is an external collaborator and is not part of the
state.
-/

def severityToString (sev : Int) : String :=
  if 3 ≤ sev then "CRITICAL" else if sev = 2 then "SERIOUS" else "NORMAL"

def intToSeverity (x : Int) : Int :=
  if 3 ≤ x then 3 else if x = 2 then 2 else 1

def escChars : List Char → List Char
  | [] => []
  | c :: r => if c = '"' then '"' :: '"' :: escChars r else c :: escChars r

-- `escapeCSV` in the source also maps null to ""; strings here are never null.
def escapeCSV (s : String) : String := String.mk (escChars s.data)

def unescChars : List Char → List Char
  | '"' :: '"' :: r => '"' :: unescChars r
  | c :: r => c :: unescChars r
  | [] => []

def unescapeCSV (s : String) : String := String.mk (unescChars s.data)

def severityTreatmentMs (sev : Int) : Int :=
  if 3 ≤ sev then 45000 else if sev = 2 then 40000 else 35000

structure Patient where
  id : Int
  name : String
  age : Int
  complaint : String
  severity : Int
  status : String
  assignedBed : Int
  requiresVentilator : Bool
  assignedVentilator : Int
  enqueuedSequence : Int
  registrationTime : String
  treatmentDurationMs : Int
  prescription : String
deriving DecidableEq, Repr

def generatePrescription (p : Patient) : String :=
  let base :=
    if 3 ≤ p.severity then "ICU Medications + Broad-Spectrum Antibiotics"
    else if p.severity = 2 then "Analgesics + Continuous Monitoring"
    else "Rest + Paracetamol 500mg"
  if p.requiresVentilator then base ++ " | Ventilator Support Required" else base

def digitsToNat (l : List Char) : Nat :=
  l.foldl (fun acc c => acc * 10 + (c.toNat - 48)) 0

def natDigitsGo : Nat → Nat → List Char
  | 0, _ => []
  | fuel + 1, n =>
    if n < 10 then [Nat.digitChar n]
    else natDigitsGo fuel (n / 10) ++ [Nat.digitChar (n % 10)]

-- Fuel-based so that the kernel can evaluate it; `n + 1` units always suffice.
def natDigits (n : Nat) : List Char := natDigitsGo (n + 1) n

/-- Decimal rendering of a JS number holding an integer value (`String(n)`). -/
def intStr (i : Int) : String :=
  if i < 0 then String.mk ('-' :: natDigits i.natAbs) else String.mk (natDigits i.natAbs)

def quoteWrap (s : String) : String := "\"" ++ s ++ "\""

def patientToCSV (p : Patient) : String :=
  String.intercalate ","
    [ intStr p.id,
      quoteWrap (escapeCSV p.name),
      intStr p.age,
      quoteWrap (escapeCSV p.complaint),
      intStr p.severity,
      p.status,
      intStr p.assignedBed,
      (if p.requiresVentilator then "1" else "0"),
      intStr p.assignedVentilator,
      intStr p.enqueuedSequence,
      quoteWrap p.registrationTime,
      intStr p.treatmentDurationMs,
      quoteWrap (escapeCSV p.prescription) ]

def parseAux : List Char → Bool → List Char → List (List Char) → List (List Char)
  | [], _, cur, out => out ++ [cur]
  | '"' :: '"' :: rest2, true, cur, out => parseAux rest2 true (cur ++ ['"']) out
  | '"' :: rest, true, cur, out => parseAux rest false cur out
  | '"' :: rest, false, cur, out => parseAux rest true cur out
  | c :: rest, inQ, cur, out =>
    if c = ',' ∧ inQ = false then parseAux rest inQ [] (out ++ [cur])
    else parseAux rest inQ (cur ++ [c]) out

def parseCSVLine (line : String) : List String :=
  (parseAux line.data false [] []).map String.mk

def isDig (c : Char) : Bool := 48 ≤ c.toNat ∧ c.toNat ≤ 57

/-- Model of JS `parseInt(s, 10)` on the strings this program writes: an
optional minus sign followed by a longest digit prefix; `none` models `NaN`
(the embedding cannot store `NaN` in an `Int` field, so a record whose numeric
field fails to parse is modelled as a parse failure). -/
def parseLeadingNat (l : List Char) : Option Nat :=
  let ds := l.takeWhile isDig
  if ds = [] then none else some (digitsToNat ds)

def parseIntJS (s : String) : Option Int :=
  match s.data with
  | '-' :: rest => (parseLeadingNat rest).map (fun n => -(n : Int))
  | l => (parseLeadingNat l).map (fun n => (n : Int))

def patientFromCSVLine (line : String) : Option Patient :=
  let fields := parseCSVLine line
  if fields.length < 13 then none
  else
    match parseIntJS (fields.getD 0 ""), parseIntJS (fields.getD 2 ""),
          parseIntJS (fields.getD 4 ""), parseIntJS (fields.getD 6 ""),
          parseIntJS (fields.getD 7 ""), parseIntJS (fields.getD 8 ""),
          parseIntJS (fields.getD 9 ""), parseIntJS (fields.getD 11 "") with
    | some pid, some age, some sev, some bed, some ventFlag, some vent,
      some seq, some ms =>
      some
        { id := pid
          name := unescapeCSV (fields.getD 1 "")
          age := age
          complaint := unescapeCSV (fields.getD 3 "")
          severity := intToSeverity sev
          status := fields.getD 5 ""
          assignedBed := bed
          requiresVentilator := ventFlag != 0
          assignedVentilator := vent
          enqueuedSequence := seq
          registrationTime := unescapeCSV (fields.getD 10 "")
          treatmentDurationMs := ms
          prescription := unescapeCSV (fields.getD 12 "") }
    | _, _, _, _, _, _, _, _ => none

structure Resources where
  totalBeds : Int
  usedBeds : Int
  totalVentilators : Int
  usedVentilators : Int
deriving DecidableEq, Repr

def setTotals (r : Resources) (beds vents : Int) : Resources :=
  { totalBeds := beds
    totalVentilators := vents
    usedBeds := min r.usedBeds beds
    usedVentilators := min r.usedVentilators vents }

def allocateBed (r : Resources) : Int × Resources :=
  if r.usedBeds < r.totalBeds then
    (r.usedBeds + 1, { r with usedBeds := r.usedBeds + 1 })
  else (-1, r)

-- The source's `releaseBed(idx)` ignores its argument; kept for the same shape.
def releaseBed (r : Resources) (idx : Int) : Resources :=
  if 0 < r.usedBeds then { r with usedBeds := r.usedBeds - 1 } else r

def allocateVentilator (r : Resources) : Int × Resources :=
  if r.usedVentilators < r.totalVentilators then
    (r.usedVentilators + 1, { r with usedVentilators := r.usedVentilators + 1 })
  else (-1, r)

def releaseVentilator (r : Resources) (idx : Int) : Resources :=
  if 0 < r.usedVentilators then { r with usedVentilators := r.usedVentilators - 1 } else r

structure WaitEntry where
  patient : Patient
  sequence : Int
deriving DecidableEq, Repr

abbrev Registry := List (Int × Patient)

def regGet : Registry → Int → Option Patient
  | [], _ => none
  | (k, q) :: rest, id => if k = id then some q else regGet rest id

def regSet (m : Registry) (id : Int) (p : Patient) : Registry :=
  match m with
  | [] => [(id, p)]
  | (k, q) :: rest => if k = id then (id, p) :: rest else (k, q) :: regSet rest id p

structure SysState where
  patientRecords : Registry
  waitingQueue : List WaitEntry
  readyQueue : List Int
  sequenceCounter : Int
  nextPatientId : Int
  resources : Resources
deriving DecidableEq, Repr

def initialState : SysState :=
  { patientRecords := []
    waitingQueue := []
    readyQueue := []
    sequenceCounter := 0
    nextPatientId := 1
    resources := { totalBeds := 0, usedBeds := 0, totalVentilators := 0, usedVentilators := 0 } }

/-- Order used by `sortWaitingQueue`'s comparator: severity descending, then
arrival sequence ascending. -/
def entryR (a b : WaitEntry) : Prop :=
  b.patient.severity < a.patient.severity ∨
    (a.patient.severity = b.patient.severity ∧ a.sequence ≤ b.sequence)

instance : DecidableRel entryR := fun a b => by unfold entryR; infer_instance

def sortWaitingQueue (q : List WaitEntry) : List WaitEntry :=
  List.insertionSort entryR q

instance : IsTotal WaitEntry entryR := by
  constructor
  intro a b
  unfold entryR
  omega

instance : IsTrans WaitEntry entryR := by
  constructor
  intro a b c
  unfold entryR
  omega

structure AllocOut where
  queue : List WaitEntry
  recs : Registry
  ready : List Int
  res : Resources
  progressed : Bool
deriving DecidableEq, Repr

def tryAllocLoop : List WaitEntry → Registry → List Int → Resources → AllocOut
  | [], recs, ready, res => ⟨[], recs, ready, res, false⟩
  | top :: rest, recs, ready, res =>
    let p := top.patient
    let bedA := allocateBed res
    if bedA.fst = -1 then ⟨top :: rest, recs, ready, bedA.snd, false⟩
    else
      if p.requiresVentilator then
        let ventA := allocateVentilator bedA.snd
        if ventA.fst = -1 then
          ⟨top :: rest, recs, ready, releaseBed ventA.snd bedA.fst, false⟩
        else
          let recs2 :=
            match regGet recs p.id with
            | some q => regSet recs p.id
                { q with
                  assignedBed := bedA.fst
                  assignedVentilator := ventA.fst
                  status := "Allocated" }
            | none => recs
          let o := tryAllocLoop rest recs2 (ready ++ [p.id]) ventA.snd
          ⟨o.queue, o.recs, o.ready, o.res, true⟩
      else
        let recs2 :=
          match regGet recs p.id with
          | some q => regSet recs p.id
              { q with
                assignedBed := bedA.fst
                assignedVentilator := -1
                status := "Allocated" }
          | none => recs
        let o := tryAllocLoop rest recs2 (ready ++ [p.id]) bedA.snd
        ⟨o.queue, o.recs, o.ready, o.res, true⟩

-- `progressed` only gates the external persistence call, which is not modelled.
def tryAllocateResources (st : SysState) : SysState :=
  let o := tryAllocLoop st.waitingQueue st.patientRecords st.readyQueue st.resources
  { st with
    waitingQueue := o.queue
    patientRecords := o.recs
    readyQueue := o.ready
    resources := o.res }

-- The wall-clock registration time is an input of the embedding.
def registerPatient (st : SysState) (name : String) (age : Int) (complaint : String)
    (severity : Int) (requiresVentilator : Bool) (registrationTime : String) :
    SysState × Option Patient :=
  let p : Patient :=
    { id := st.nextPatientId
      name := name
      age := age
      complaint := complaint
      severity := intToSeverity severity
      status := "Waiting"
      assignedBed := -1
      assignedVentilator := -1
      requiresVentilator := requiresVentilator
      enqueuedSequence := st.sequenceCounter
      registrationTime := registrationTime
      treatmentDurationMs := severityTreatmentMs (intToSeverity severity)
      prescription := "" }
  let st1 := { st with
    nextPatientId := st.nextPatientId + 1
    sequenceCounter := st.sequenceCounter + 1
    patientRecords := regSet st.patientRecords p.id p
    waitingQueue := sortWaitingQueue (st.waitingQueue ++ [⟨p, p.enqueuedSequence⟩]) }
  let st2 := tryAllocateResources st1
  (st2, regGet st2.patientRecords p.id)

def dischargePatient (st : SysState) (id : Int) : Bool × SysState :=
  match regGet st.patientRecords id with
  | none => (false, st)
  | some p =>
    let res1 := if p.assignedBed ≠ -1 then releaseBed st.resources p.assignedBed else st.resources
    let p1 := if p.assignedBed ≠ -1 then { p with assignedBed := -1 } else p
    let res2 :=
      if p1.assignedVentilator ≠ -1 then releaseVentilator res1 p1.assignedVentilator else res1
    let p2 := if p1.assignedVentilator ≠ -1 then { p1 with assignedVentilator := -1 } else p1
    let p3 := { p2 with status := "Discharged" }
    let st2 := { st with patientRecords := regSet st.patientRecords id p3, resources := res2 }
    (true, tryAllocateResources st2)

/-- One dequeue step of a doctor worker's loop: shift the ready queue and mark
the patient In-Treatment (`!pid` also skips a falsy id 0, as in the source). -/
def workerPickup (st : SysState) : SysState :=
  match st.readyQueue with
  | [] => st
  | pid :: rest =>
    if pid = 0 then { st with readyQueue := rest }
    else
      match regGet st.patientRecords pid with
      | none => { st with readyQueue := rest }
      | some p =>
        { st with
          readyQueue := rest
          patientRecords := regSet st.patientRecords pid { p with status := "In-Treatment" } }

/-- The treatment timer's completion callback for patient `pid`: write the
prescription, discharge, release held resources, re-run allocation. -/
def workerComplete (st : SysState) (pid : Int) : SysState :=
  match regGet st.patientRecords pid with
  | none => st
  | some pr =>
    let pr1 := { pr with prescription := generatePrescription pr, status := "Discharged" }
    let res1 := if pr1.assignedBed ≠ -1 then releaseBed st.resources pr1.assignedBed else st.resources
    let pr2 := if pr1.assignedBed ≠ -1 then { pr1 with assignedBed := -1 } else pr1
    let res2 :=
      if pr2.assignedVentilator ≠ -1 then releaseVentilator res1 pr2.assignedVentilator else res1
    let pr3 := if pr2.assignedVentilator ≠ -1 then { pr2 with assignedVentilator := -1 } else pr2
    let st2 := { st with patientRecords := regSet st.patientRecords pid pr3, resources := res2 }
    tryAllocateResources st2

/-- The externally triggerable operations of the scheduler.  `configure`
passes the caller-supplied numbers through `setTotals` exactly as the
`POST /api/resources/configure` handler does (the doctor count it also sets is
not part of the scheduler state). -/
inductive Op
  | register (name : String) (age : Int) (complaint : String) (severity : Int)
      (requiresVentilator : Bool) (registrationTime : String)
  | discharge (id : Int)
  | configure (beds vents : Int)
  | allocatePass
  | pickup
  | complete (pid : Int)
deriving DecidableEq, Repr

def applyOp (st : SysState) : Op → SysState
  | .register n a c s v t => (registerPatient st n a c s v t).fst
  | .discharge id => (dischargePatient st id).snd
  | .configure b v => { st with resources := setTotals st.resources b v }
  | .allocatePass => tryAllocateResources st
  | .pickup => workerPickup st
  | .complete pid => workerComplete st pid

def runOps (ops : List Op) : SysState := ops.foldl applyOp initialState

/-- A raw call sequence against the resource pool, as named in §4.2 of the
spec: the four allocate/release calls plus `setTotals` with caller-supplied
numbers (the configure endpoint passes them through unchecked). -/
inductive ResOp
  | allocBed
  | relBed (idx : Int)
  | allocVent
  | relVent (idx : Int)
  | totals (beds vents : Int)
deriving DecidableEq, Repr

def applyResOp (r : Resources) : ResOp → Resources
  | .allocBed => (allocateBed r).snd
  | .relBed idx => releaseBed r idx
  | .allocVent => (allocateVentilator r).snd
  | .relVent idx => releaseVentilator r idx
  | .totals b v => setTotals r b v

def initialResources : Resources :=
  { totalBeds := 0, usedBeds := 0, totalVentilators := 0, usedVentilators := 0 }

def runResOps (ops : List ResOp) : Resources := ops.foldl applyResOp initialResources

/-- The resource-counter invariant claimed in §8 of the spec. -/
def ResourcesOK (r : Resources) : Prop :=
  0 ≤ r.usedBeds ∧ r.usedBeds ≤ r.totalBeds ∧
    0 ≤ r.usedVentilators ∧ r.usedVentilators ≤ r.totalVentilators

instance (r : Resources) : Decidable (ResourcesOK r) := by
  unfold ResourcesOK; infer_instance

/-- The admission-queue order claimed in §8 of the spec, as a sortedness
predicate for `entryR`. -/
def QueueSorted (q : List WaitEntry) : Prop := List.Sorted entryR q

instance (q : List WaitEntry) : Decidable (QueueSorted q) := by
  unfold QueueSorted; infer_instance

/-- The aliasing invariant of the JS program, stated on the embedding: the
`requiresVentilator` flag stored in a waiting-queue entry agrees with the
registry record of the same id (in the source both are one object). -/
def coherentB (st : SysState) : Bool :=
  st.waitingQueue.all (fun e =>
    match regGet st.patientRecords e.patient.id with
    | some p => p.requiresVentilator == e.patient.requiresVentilator
    | none => true)

/-- One CSV field is consumed by the parser state machine: reading `r` from
field-start state (not in quotes, empty current field) and then any text that
does not begin with a quote leaves the machine at that text with `d` appended
to the current field. -/
def ConsumesTo (r d : List Char) : Prop :=
  ∀ (t cur : List Char) (out : List (List Char)), t.head? ≠ some '"' →
    parseAux (r ++ t) false cur out = parseAux t false (cur ++ d) out

/-- Whether a character list contains two consecutive double quotes (the
pattern `unescapeCSV` collapses). -/
def hasDQ : List Char → Bool
  | '"' :: '"' :: _ => true
  | _ :: rest => hasDQ rest
  | [] => false

/-- Fixture: a record whose name contains two consecutive double-quote
characters (and no newlines anywhere). -/
def csvBadPatient : Patient :=
  { id := 1
    name := "a\"\"b"
    age := 30
    complaint := "c"
    severity := 1
    status := "Waiting"
    assignedBed := -1
    requiresVentilator := false
    assignedVentilator := -1
    enqueuedSequence := 0
    registrationTime := "2024-01-01 10:00:00"
    treatmentDurationMs := 35000
    prescription := "" }

/-- Fixture: a well-formed record exercising commas and lone quotes in
escaped fields. -/
def csvGoodPatient : Patient :=
  { id := 7
    name := "Doe, John"
    age := 41
    complaint := "chest \"pain\""
    severity := 3
    status := "In-Treatment"
    assignedBed := 2
    requiresVentilator := true
    assignedVentilator := 1
    enqueuedSequence := 5
    registrationTime := "2024-01-01 10:00:00"
    treatmentDurationMs := 45000
    prescription := "" }

/-- Fixture: a ventilator-requiring patient used in concrete instantiations. -/
def ventPatient : Patient :=
  { id := 1
    name := "V"
    age := 50
    complaint := "difficulty breathing"
    severity := 3
    status := "Waiting"
    assignedBed := -1
    requiresVentilator := true
    assignedVentilator := -1
    enqueuedSequence := 0
    registrationTime := "t"
    treatmentDurationMs := 45000
    prescription := "" }

def ventEntry : WaitEntry := { patient := ventPatient, sequence := 0 }

/-- Fixture: `ventPatient` registered and waiting, one bed and one ventilator
free. -/
def ventState : SysState :=
  { patientRecords := [(1, ventPatient)]
    waitingQueue := [ventEntry]
    readyQueue := []
    sequenceCounter := 1
    nextPatientId := 2
    resources := { totalBeds := 1, usedBeds := 0, totalVentilators := 1, usedVentilators := 0 } }

example : intStr (-12) = "-12" := by decide
example : intStr 0 = "0" := by decide
example : intStr 45000 = "45000" := by decide
example : parseIntJS "-12" = some (-12) := by decide
example : parseCSVLine "1,\"a,b\",2" = ["1", "a,b", "2"] := by decide
example : parseCSVLine "\"a\"\"b\"" = ["a\"b"] := by decide

/-!
Helper lemmas
-/

theorem applyResOp_ok (r : Resources) (op : ResOp) (h : ResourcesOK r)
    (hc : ∀ b v, op = ResOp.totals b v → 0 ≤ b ∧ 0 ≤ v) :
    ResourcesOK (applyResOp r op) := by
  obtain ⟨h1, h2, h3, h4⟩ := h
  cases op with
  | allocBed =>
    by_cases hb : r.usedBeds < r.totalBeds <;>
      simp [applyResOp, allocateBed, hb, ResourcesOK] <;> omega
  | relBed idx =>
    by_cases hb : 0 < r.usedBeds <;>
      simp [applyResOp, releaseBed, hb, ResourcesOK] <;> omega
  | allocVent =>
    by_cases hb : r.usedVentilators < r.totalVentilators <;>
      simp [applyResOp, allocateVentilator, hb, ResourcesOK] <;> omega
  | relVent idx =>
    by_cases hb : 0 < r.usedVentilators <;>
      simp [applyResOp, releaseVentilator, hb, ResourcesOK] <;> omega
  | totals b v =>
    obtain ⟨hb, hv⟩ := hc b v rfl
    simp [applyResOp, setTotals, ResourcesOK]
    omega

theorem foldResOps_ok (ops : List ResOp) (r : Resources) (h : ResourcesOK r)
    (hc : ∀ b v, ResOp.totals b v ∈ ops → 0 ≤ b ∧ 0 ≤ v) :
    ResourcesOK (ops.foldl applyResOp r) := by
  induction ops generalizing r with
  | nil => simpa using h
  | cons op rest ih =>
    simp only [List.foldl_cons]
    refine ih _ (applyResOp_ok r op h ?_) ?_
    · intro b v hbv
      exact hc b v (by simp [hbv])
    · intro b v hbv
      exact hc b v (by simp [hbv])

/-!
Claim C4 — resource-counter bounds (corrected)
-/

/-- C4, counterexample: the claim as stated is false — the configure endpoint
passes caller-supplied numbers through unchecked, so a single
`setTotals(-1, 0)` call drives `totalBeds` and `usedBeds` to `-1`, violating
`0 ≤ usedBeds ≤ totalBeds` and non-negativity. -/
theorem c4_counterexample : ¬ ResourcesOK (runResOps [ResOp.totals (-1) 0]) := by
  decide

/-- C4, amended: after any sequence of allocateBed/releaseBed/
allocateVentilator/releaseVentilator/setTotals calls in which every
`setTotals` call receives non-negative totals, the counters satisfy
`0 ≤ usedBeds ≤ totalBeds` and `0 ≤ usedVentilators ≤ totalVentilators`
(hence all four counters are non-negative). -/
theorem c4_resource_invariant (ops : List ResOp)
    (hc : ∀ b v, ResOp.totals b v ∈ ops → 0 ≤ b ∧ 0 ≤ v) :
    ResourcesOK (runResOps ops) :=
  foldResOps_ok ops initialResources (by decide) hc

theorem c4_resource_invariant_witness :
    ResourcesOK (runResOps [ResOp.totals 2 1, ResOp.allocBed, ResOp.relBed 1]) :=
  c4_resource_invariant [ResOp.totals 2 1, ResOp.allocBed, ResOp.relBed 1]
    (by
      rintro b v hv
      simp at hv
      obtain ⟨rfl, rfl⟩ := hv
      omega)

theorem regGet_regSet_self (m : Registry) (id : Int) (p : Patient) :
    regGet (regSet m id p) id = some p := by
  induction m with
  | nil => simp [regSet, regGet]
  | cons kv rest ih =>
    obtain ⟨k, q⟩ := kv
    by_cases h : k = id
    · simp [regSet, h, regGet]
    · simp [regSet, h, regGet, ih]

theorem regGet_regSet_ne (m : Registry) (id id2 : Int) (p : Patient) (h : id2 ≠ id) :
    regGet (regSet m id p) id2 = regGet m id2 := by
  induction m with
  | nil => simp [regSet, regGet, Ne.symm h]
  | cons kv rest ih =>
    obtain ⟨k, q⟩ := kv
    by_cases hk : k = id
    · subst hk
      simp [regSet, regGet, Ne.symm h]
    · by_cases hk2 : k = id2 <;> simp [regSet, hk, regGet, hk2, h, ih]

theorem tryAllocLoop_queue_drop (q : List WaitEntry) (recs : Registry) (ready : List Int)
    (res : Resources) : ∃ n, (tryAllocLoop q recs ready res).queue = q.drop n := by
  induction q generalizing recs ready res with
  | nil => exact ⟨0, rfl⟩
  | cons top rest ih =>
    by_cases hb : (allocateBed res).fst = -1
    · exact ⟨0, by simp [tryAllocLoop, hb]⟩
    · by_cases hv : top.patient.requiresVentilator
      · by_cases hvv : (allocateVentilator (allocateBed res).snd).fst = -1
        · exact ⟨0, by simp [tryAllocLoop, hb, hv, hvv]⟩
        · obtain ⟨n, hn⟩ := ih
            (match regGet recs top.patient.id with
              | some q => regSet recs top.patient.id
                  { q with
                    assignedBed := (allocateBed res).fst
                    assignedVentilator := (allocateVentilator (allocateBed res).snd).fst
                    status := "Allocated" }
              | none => recs)
            (ready ++ [top.patient.id]) (allocateVentilator (allocateBed res).snd).snd
          refine ⟨n + 1, ?_⟩
          simpa [tryAllocLoop, hb, hv, hvv] using hn
      · obtain ⟨n, hn⟩ := ih
          (match regGet recs top.patient.id with
            | some q => regSet recs top.patient.id
                { q with
                  assignedBed := (allocateBed res).fst
                  assignedVentilator := -1
                  status := "Allocated" }
            | none => recs)
          (ready ++ [top.patient.id]) (allocateBed res).snd
        refine ⟨n + 1, ?_⟩
        simpa [tryAllocLoop, hb, hv] using hn

theorem sortWaitingQueue_sorted (q : List WaitEntry) : QueueSorted (sortWaitingQueue q) :=
  List.sorted_insertionSort entryR q

theorem tryAllocateResources_sorted (st : SysState) (h : QueueSorted st.waitingQueue) :
    QueueSorted (tryAllocateResources st).waitingQueue := by
  obtain ⟨n, hn⟩ :=
    tryAllocLoop_queue_drop st.waitingQueue st.patientRecords st.readyQueue st.resources
  show QueueSorted (tryAllocLoop st.waitingQueue st.patientRecords st.readyQueue st.resources).queue
  rw [hn]
  exact List.Pairwise.sublist (List.drop_sublist n _) h

theorem applyOp_sorted (st : SysState) (op : Op) (h : QueueSorted st.waitingQueue) :
    QueueSorted (applyOp st op).waitingQueue := by
  cases op with
  | register n a c s v t =>
    exact tryAllocateResources_sorted _ (sortWaitingQueue_sorted _)
  | discharge id =>
    cases hreg : regGet st.patientRecords id with
    | none => simpa [applyOp, dischargePatient, hreg] using h
    | some p =>
      simp only [applyOp, dischargePatient, hreg]
      exact tryAllocateResources_sorted _ h
  | configure b v => simpa [applyOp] using h
  | allocatePass => exact tryAllocateResources_sorted _ h
  | pickup =>
    cases hrq : st.readyQueue with
    | nil => simpa [applyOp, workerPickup, hrq] using h
    | cons pid rest =>
      by_cases hz : pid = 0
      · simpa [applyOp, workerPickup, hrq, hz] using h
      · cases hreg : regGet st.patientRecords pid with
        | none => simpa [applyOp, workerPickup, hrq, hz, hreg] using h
        | some p => simpa [applyOp, workerPickup, hrq, hz, hreg] using h
  | complete pid =>
    cases hreg : regGet st.patientRecords pid with
    | none => simpa [applyOp, workerComplete, hreg] using h
    | some p =>
      simp only [applyOp, workerComplete, hreg]
      exact tryAllocateResources_sorted _ h

theorem runOps_sorted (ops : List Op) : QueueSorted (runOps ops).waitingQueue := by
  suffices hall : ∀ st, QueueSorted st.waitingQueue →
      QueueSorted (ops.foldl applyOp st).waitingQueue by
    exact hall initialState (by simp [initialState, QueueSorted])
  induction ops with
  | nil => exact fun st h => h
  | cons op rest ih => exact fun st h => ih _ (applyOp_sorted st op h)

/-!
Claim C6 — strict head-of-line blocking (confirmed)
-/

/-- C6: head-of-line blocking.  If bed allocation fails for the front patient
of a non-empty admission queue (`usedBeds < totalBeds` is false), the
allocation pass returns the state unchanged — in particular no patient behind
the front patient is allocated in that pass; and for every state the pass
removes a (possibly empty) prefix of the priority-ordered queue, leaving the
remaining suffix intact. -/
theorem c6_head_of_line_blocking :
    (∀ (st : SysState) (top : WaitEntry) (rest : List WaitEntry),
        st.waitingQueue = top :: rest →
        ¬ st.resources.usedBeds < st.resources.totalBeds →
        tryAllocateResources st = st) ∧
      ∀ st : SysState, ∃ n, (tryAllocateResources st).waitingQueue = st.waitingQueue.drop n := by
  constructor
  · intro st top rest hq hb
    obtain ⟨recs, wq, rq, sc, np, res⟩ := st
    simp only at hq hb
    subst hq
    simp [tryAllocateResources, tryAllocLoop, allocateBed, hb]
  · intro st
    exact tryAllocLoop_queue_drop st.waitingQueue st.patientRecords st.readyQueue st.resources

theorem c6_head_of_line_blocking_witness :
    tryAllocateResources (runOps [Op.register "A" 30 "cold" 1 false "t"]) =
      runOps [Op.register "A" 30 "cold" 1 false "t"] :=
  c6_head_of_line_blocking.1 (runOps [Op.register "A" 30 "cold" 1 false "t"])
    { patient :=
        { id := 1
          name := "A"
          age := 30
          complaint := "cold"
          severity := 1
          status := "Waiting"
          assignedBed := -1
          requiresVentilator := false
          assignedVentilator := -1
          enqueuedSequence := 0
          registrationTime := "t"
          treatmentDurationMs := 35000
          prescription := "" }
      sequence := 0 }
    [] (by decide) (by decide)

/-!
Claim C7 — admission-queue priority order (confirmed)
-/

/-- C7: in every reachable state the admission queue is sorted by severity
descending with ties broken by arrival sequence ascending (`entryR`); the
sort used at registration always produces such an order, and an allocation
pass (pop front / push front on rollback) preserves it. -/
theorem c7_queue_priority_order :
    (∀ ops : List Op, QueueSorted (runOps ops).waitingQueue) ∧
      (∀ q : List WaitEntry, QueueSorted (sortWaitingQueue q)) ∧
      ∀ st : SysState, QueueSorted st.waitingQueue →
        QueueSorted (tryAllocateResources st).waitingQueue :=
  ⟨runOps_sorted, sortWaitingQueue_sorted, tryAllocateResources_sorted⟩

theorem c7_queue_priority_order_witness :
    QueueSorted
      (tryAllocateResources
        (runOps [Op.register "A" 30 "cold" 1 false "t",
          Op.register "B" 40 "chest pain" 3 false "t"])).waitingQueue :=
  c7_queue_priority_order.2.2
    (runOps [Op.register "A" 30 "cold" 1 false "t",
      Op.register "B" 40 "chest pain" 3 false "t"])
    (by decide)

/-- How one allocation pass can change a registry record: either it is left
untouched, or it belongs to some queue entry and is overwritten with the same
record carrying new resource handles and status `"Allocated"` — where a
ventilator-requiring queue entry never receives the `-1` ventilator handle. -/
theorem tryAllocLoop_regGet (q : List WaitEntry) (recs : Registry) (ready : List Int)
    (res : Resources) (id : Int) :
    regGet (tryAllocLoop q recs ready res).recs id = regGet recs id ∨
      ∃ e, e ∈ q ∧ e.patient.id = id ∧
        ∃ p bedIdx ventIdx, regGet recs id = some p ∧
          regGet (tryAllocLoop q recs ready res).recs id =
            some { p with
              assignedBed := bedIdx
              assignedVentilator := ventIdx
              status := "Allocated" } ∧
          (e.patient.requiresVentilator = true → ventIdx ≠ -1) := by
  induction q generalizing recs ready res with
  | nil => left; rfl
  | cons top rest ih =>
    by_cases hb : (allocateBed res).fst = -1
    · left
      simp [tryAllocLoop, hb]
    · by_cases hv : top.patient.requiresVentilator
      · by_cases hvv : (allocateVentilator (allocateBed res).snd).fst = -1
        · left
          simp [tryAllocLoop, hb, hv, hvv]
        · cases hreg : regGet recs top.patient.id with
          | none =>
            have hout : (tryAllocLoop (top :: rest) recs ready res).recs =
                (tryAllocLoop rest recs (ready ++ [top.patient.id])
                  (allocateVentilator (allocateBed res).snd).snd).recs := by
              simp [tryAllocLoop, hb, hv, hvv, hreg]
            rcases ih recs (ready ++ [top.patient.id])
                (allocateVentilator (allocateBed res).snd).snd with hl | hr
            · left
              rw [hout, hl]
            · right
              obtain ⟨e, he, hid, p, b2, v2, hp, hq, hc⟩ := hr
              exact ⟨e, List.mem_cons_of_mem _ he, hid, p, b2, v2, hp, hout ▸ hq, hc⟩
          | some pcur =>
            have hout : (tryAllocLoop (top :: rest) recs ready res).recs =
                (tryAllocLoop rest
                  (regSet recs top.patient.id
                    { pcur with
                      assignedBed := (allocateBed res).fst
                      assignedVentilator := (allocateVentilator (allocateBed res).snd).fst
                      status := "Allocated" })
                  (ready ++ [top.patient.id])
                  (allocateVentilator (allocateBed res).snd).snd).recs := by
              simp [tryAllocLoop, hb, hv, hvv, hreg]
            rcases ih
                (regSet recs top.patient.id
                  { pcur with
                    assignedBed := (allocateBed res).fst
                    assignedVentilator := (allocateVentilator (allocateBed res).snd).fst
                    status := "Allocated" })
                (ready ++ [top.patient.id])
                (allocateVentilator (allocateBed res).snd).snd with hl | hr
            · by_cases hid : top.patient.id = id
              · right
                refine ⟨top, List.mem_cons_self _ _, hid, pcur, (allocateBed res).fst,
                  (allocateVentilator (allocateBed res).snd).fst, hid ▸ hreg, ?_, fun _ => hvv⟩
                rw [hout, hl, hid, regGet_regSet_self]
              · left
                rw [hout, hl, regGet_regSet_ne _ _ _ _ (fun hh => hid hh.symm)]
            · obtain ⟨e, he, hid, p, b2, v2, hp, hq, hc⟩ := hr
              by_cases hid2 : top.patient.id = id
              · right
                rw [hid2, regGet_regSet_self] at hp
                obtain rfl := Option.some.injEq _ _ ▸ hp
                refine ⟨e, List.mem_cons_of_mem _ he, hid, pcur, b2, v2, hid2 ▸ hreg, ?_, hc⟩
                rw [hout]
                exact hq
              · right
                rw [regGet_regSet_ne _ _ _ _ (fun hh => hid2 hh.symm)] at hp
                exact ⟨e, List.mem_cons_of_mem _ he, hid, p, b2, v2, hp, hout ▸ hq, hc⟩
      · cases hreg : regGet recs top.patient.id with
        | none =>
          have hout : (tryAllocLoop (top :: rest) recs ready res).recs =
              (tryAllocLoop rest recs (ready ++ [top.patient.id])
                (allocateBed res).snd).recs := by
            simp [tryAllocLoop, hb, hv, hreg]
          rcases ih recs (ready ++ [top.patient.id]) (allocateBed res).snd with hl | hr
          · left
            rw [hout, hl]
          · right
            obtain ⟨e, he, hid, p, b2, v2, hp, hq, hc⟩ := hr
            exact ⟨e, List.mem_cons_of_mem _ he, hid, p, b2, v2, hp, hout ▸ hq, hc⟩
        | some pcur =>
          have hout : (tryAllocLoop (top :: rest) recs ready res).recs =
              (tryAllocLoop rest
                (regSet recs top.patient.id
                  { pcur with
                    assignedBed := (allocateBed res).fst
                    assignedVentilator := -1
                    status := "Allocated" })
                (ready ++ [top.patient.id])
                (allocateBed res).snd).recs := by
            simp [tryAllocLoop, hb, hv, hreg]
          rcases ih
              (regSet recs top.patient.id
                { pcur with
                  assignedBed := (allocateBed res).fst
                  assignedVentilator := -1
                  status := "Allocated" })
              (ready ++ [top.patient.id])
              (allocateBed res).snd with hl | hr
          · by_cases hid : top.patient.id = id
            · right
              refine ⟨top, List.mem_cons_self _ _, hid, pcur, (allocateBed res).fst, -1,
                hid ▸ hreg, ?_, fun hcv => absurd hcv (by simp [hv])⟩
              rw [hout, hl, hid, regGet_regSet_self]
            · left
              rw [hout, hl, regGet_regSet_ne _ _ _ _ (fun hh => hid hh.symm)]
          · obtain ⟨e, he, hid, p, b2, v2, hp, hq, hc⟩ := hr
            by_cases hid2 : top.patient.id = id
            · right
              rw [hid2, regGet_regSet_self] at hp
              obtain rfl := Option.some.injEq _ _ ▸ hp
              refine ⟨e, List.mem_cons_of_mem _ he, hid, pcur, b2, v2, hid2 ▸ hreg, ?_, hc⟩
              rw [hout]
              exact hq
            · right
              rw [regGet_regSet_ne _ _ _ _ (fun hh => hid2 hh.symm)] at hp
              exact ⟨e, List.mem_cons_of_mem _ he, hid, p, b2, v2, hp, hout ▸ hq, hc⟩

/-!
Claim C5 — all-or-nothing allocation with rollback (confirmed)
-/

/-- C5: during an allocation pass, if the patient at the front of the queue
requires a ventilator, a bed is available but no ventilator is, the loop
releases the bed just taken, pushes the entry back to the front (queue,
registry, ready queue and counters all end exactly as they started) and stops;
and no patient whose record requires a ventilator is newly marked `Allocated`
by a pass with the `-1` (none) ventilator handle — given the source's aliasing
invariant between queue entries and registry records (`coherentB`). -/
theorem c5_all_or_nothing_rollback :
    (∀ (queue : List WaitEntry) (recs : Registry) (ready : List Int) (res : Resources)
        (top : WaitEntry) (rest : List WaitEntry),
        queue = top :: rest →
        top.patient.requiresVentilator = true →
        0 ≤ res.usedBeds →
        res.usedBeds < res.totalBeds →
        ¬ res.usedVentilators < res.totalVentilators →
        tryAllocLoop queue recs ready res = ⟨queue, recs, ready, res, false⟩) ∧
      ∀ (st : SysState) (id : Int) (p q2 : Patient),
        coherentB st = true →
        regGet st.patientRecords id = some p →
        p.status ≠ "Allocated" →
        regGet (tryAllocateResources st).patientRecords id = some q2 →
        q2.status = "Allocated" →
        q2.requiresVentilator = true →
        q2.assignedVentilator ≠ -1 := by
  constructor
  · intro queue recs ready res top rest hq hv hub hb hvv
    subst hq
    obtain ⟨tb, ub, tv, uv⟩ := res
    simp only at hub hb hvv
    have hbed : allocateBed ⟨tb, ub, tv, uv⟩ = (ub + 1, ⟨tb, ub + 1, tv, uv⟩) := by
      simp [allocateBed, hb]
    have hne : ¬ ((ub : Int) + 1 = -1) := by omega
    have hvent : allocateVentilator ⟨tb, ub + 1, tv, uv⟩ = (-1, ⟨tb, ub + 1, tv, uv⟩) := by
      simp [allocateVentilator, hvv]
    have hpos : (0 : Int) < ub + 1 := by omega
    simp [tryAllocLoop, hbed, hne, hv, hvent, releaseBed, hpos]
  · intro st id p q2 hco hp hpstat hq hqstat hqvent
    have hqloop : regGet
        (tryAllocLoop st.waitingQueue st.patientRecords st.readyQueue st.resources).recs id =
        some q2 := hq
    rcases tryAllocLoop_regGet st.waitingQueue st.patientRecords st.readyQueue st.resources id
      with hl | hr
    · rw [hl, hp] at hqloop
      obtain rfl := Option.some.inj hqloop
      exact absurd hqstat hpstat
    · obtain ⟨e, he, hid, p0, b2, v2, hp0, hq0, hc⟩ := hr
      rw [hp] at hp0
      obtain rfl := Option.some.inj hp0
      rw [hq0] at hqloop
      obtain rfl := Option.some.inj hqloop
      have hcoh : p.requiresVentilator = e.patient.requiresVentilator := by
        have hall := hco
        simp only [coherentB, List.all_eq_true] at hall
        have hthis := hall e he
        rw [hid, hp] at hthis
        simpa using hthis
      have hev : e.patient.requiresVentilator = true := by
        rw [← hcoh]
        simpa using hqvent
      simpa using hc hev

theorem c5_all_or_nothing_rollback_witness :
    tryAllocLoop [ventEntry] [] [] ⟨1, 0, 1, 1⟩ = ⟨[ventEntry], [], [], ⟨1, 0, 1, 1⟩, false⟩ ∧
      ({ ventPatient with
          assignedBed := 1
          assignedVentilator := 1
          status := "Allocated" } : Patient).assignedVentilator ≠ -1 :=
  ⟨c5_all_or_nothing_rollback.1 [ventEntry] [] [] ⟨1, 0, 1, 1⟩ ventEntry [] rfl
      (by decide) (by decide) (by decide) (by decide),
    c5_all_or_nothing_rollback.2 ventState 1 ventPatient
      { ventPatient with
        assignedBed := 1
        assignedVentilator := 1
        status := "Allocated" }
      (by decide) (by decide) (by decide) (by decide) (by decide) (by decide)⟩

theorem generatePrescription_eq (p : Patient) :
    generatePrescription p =
      (if 3 ≤ p.severity then "ICU Medications + Broad-Spectrum Antibiotics"
        else if p.severity = 2 then "Analgesics + Continuous Monitoring"
        else "Rest + Paracetamol 500mg") ++
        (if p.requiresVentilator then " | Ventilator Support Required" else "") := by
  cases hv : p.requiresVentilator <;> simp [generatePrescription, hv, String.append_empty]

/-- A record present in the registry before an allocation pass is still
present afterwards, with the same prescription, severity and ventilator
requirement (a pass only rewrites handles and status). -/
theorem tryAlloc_preserves_record_core (st2 : SysState) (pid : Int) (pr3 : Patient)
    (h : regGet st2.patientRecords pid = some pr3) :
    ∃ q2, regGet (tryAllocateResources st2).patientRecords pid = some q2 ∧
      q2.prescription = pr3.prescription ∧ q2.severity = pr3.severity ∧
      q2.requiresVentilator = pr3.requiresVentilator := by
  rcases tryAllocLoop_regGet st2.waitingQueue st2.patientRecords st2.readyQueue st2.resources pid
    with hl | hr
  · exact ⟨pr3, hl.trans h, rfl, rfl, rfl⟩
  · obtain ⟨e, he, hid, p0, b2, v2, hp0, hq0, hc⟩ := hr
    rw [h] at hp0
    obtain rfl := Option.some.inj hp0
    exact ⟨_, hq0, rfl, rfl, rfl⟩

/-!
Claim C8 — deterministic prescription at worker discharge (confirmed)
-/

/-- C8: the prescription depends only on severity and the ventilator flag,
and the record left in the registry by a worker's treatment-completion
callback carries exactly the base regimen of the patient's severity tier with
the ventilator-support suffix appended iff `requiresVentilator` (the cascade
the callback triggers never rewrites a prescription). -/
theorem c8_prescription_deterministic :
    (∀ p q2 : Patient, p.severity = q2.severity →
        p.requiresVentilator = q2.requiresVentilator →
        generatePrescription p = generatePrescription q2) ∧
      ∀ (st : SysState) (pid : Int) (pr : Patient),
        regGet st.patientRecords pid = some pr →
        ∃ q2, regGet (workerComplete st pid).patientRecords pid = some q2 ∧
          q2.prescription =
            (if 3 ≤ pr.severity then "ICU Medications + Broad-Spectrum Antibiotics"
              else if pr.severity = 2 then "Analgesics + Continuous Monitoring"
              else "Rest + Paracetamol 500mg") ++
              (if pr.requiresVentilator then " | Ventilator Support Required" else "") := by
  constructor
  · intro p q2 hs hv
    simp [generatePrescription, hs, hv]
  · intro st pid pr hp
    rw [← generatePrescription_eq pr]
    have key : ∀ (st2 : SysState) (pr3 : Patient),
        regGet st2.patientRecords pid = some pr3 →
        pr3.prescription = generatePrescription pr →
        ∃ q2, regGet (tryAllocateResources st2).patientRecords pid = some q2 ∧
          q2.prescription = generatePrescription pr := by
      intro st2 pr3 h3 hpr
      obtain ⟨q2, hq2, hpres, hs2, hr2⟩ := tryAlloc_preserves_record_core st2 pid pr3 h3
      exact ⟨q2, hq2, hpres.trans hpr⟩
    simp only [workerComplete, hp]
    split_ifs <;> exact key _ _ (regGet_regSet_self _ _ _) rfl

theorem c8_prescription_deterministic_witness :
    (generatePrescription ventPatient =
        generatePrescription
          { ventPatient with
            name := "W"
            age := 60 }) ∧
      ∃ q2, regGet (workerComplete ventState 1).patientRecords 1 = some q2 ∧
        q2.prescription =
          (if 3 ≤ ventPatient.severity then "ICU Medications + Broad-Spectrum Antibiotics"
            else if ventPatient.severity = 2 then "Analgesics + Continuous Monitoring"
            else "Rest + Paracetamol 500mg") ++
            (if ventPatient.requiresVentilator then " | Ventilator Support Required" else "") :=
  ⟨c8_prescription_deterministic.1 ventPatient
      { ventPatient with
        name := "W"
        age := 60 } rfl rfl,
    c8_prescription_deterministic.2 ventState 1 ventPatient (by decide)⟩

/-!
Claim C9 — discharge of an unknown id fails without side effects (confirmed)
-/

/-- C9: for an id absent from the registry, `dischargePatient` returns `false`
with the entire state (registry, both queues, all four resource counters)
unchanged; for an id present in the registry it returns `true`. -/
theorem c9_discharge_unknown_id :
    (∀ (st : SysState) (id : Int), regGet st.patientRecords id = none →
        dischargePatient st id = (false, st)) ∧
      ∀ (st : SysState) (id : Int) (p : Patient), regGet st.patientRecords id = some p →
        (dischargePatient st id).fst = true := by
  constructor
  · intro st id h
    simp [dischargePatient, h]
  · intro st id p h
    simp [dischargePatient, h]

theorem c9_discharge_unknown_id_witness :
    dischargePatient ventState 99 = (false, ventState) ∧
      (dischargePatient ventState 1).fst = true :=
  ⟨c9_discharge_unknown_id.1 ventState 99 (by decide),
    c9_discharge_unknown_id.2 ventState 1 ventPatient (by decide)⟩

/-!
Claim C1 — administrative discharge and the admission queue (code_bug)
-/

/-- C1 fails on the code: with no beds configured, register one patient (it
stays Waiting and queued) and discharge it administratively.
`dischargePatient` returns `true` and writes status Discharged, but
`src/server.js` never removes the entry from `waitingQueue`, so the admission
queue still holds an entry for id 1 after the call returns. -/
theorem c1_discharge_leaves_queue_entry :
    (dischargePatient (runOps [Op.register "A" 30 "cold" 1 false "t"]) 1).fst = true ∧
      (dischargePatient (runOps [Op.register "A" 30 "cold" 1 false "t"]) 1).snd.waitingQueue.map
          (fun e => e.patient.id) = [1] ∧
      (regGet (dischargePatient
            (runOps [Op.register "A" 30 "cold" 1 false "t"]) 1).snd.patientRecords 1).map
          Patient.status = some "Discharged" := by
  decide

/-!
Claim C2 — forward-only status transitions (code_bug)
-/

/-- C2 fails on the code: register a patient with no beds (it stays Waiting
and queued), configure one bed, then discharge administratively.  The call
returns `true` and writes status Discharged, but the `tryAllocate` cascade it
then triggers still sees the stale queue entry and re-allocates the
discharged patient: the final status is `"Allocated"`, so `Discharged` is not
terminal on the code. -/
theorem c2_discharged_patient_reallocated :
    (dischargePatient
          (runOps [Op.register "A" 30 "cold" 1 false "t", Op.configure 1 0]) 1).fst = true ∧
      (regGet (dischargePatient
            (runOps [Op.register "A" 30 "cold" 1 false "t", Op.configure 1 0]) 1).snd.patientRecords
          1).map Patient.status = some "Allocated" := by
  decide

/-!
Claim C3 — uniqueness of held resource handles (code_bug)
-/

/-- C3 fails on the code: `allocateBed` returns the post-increment value of
`usedBeds`, so with two beds, after A and B take handles 1 and 2, A is
discharged (decrementing the counter) and newly registered C also receives
handle 2 — patients 2 and 3 are simultaneously `Allocated` holding equal bed
handles. -/
theorem c3_duplicate_bed_handles :
    (regGet (runOps [Op.configure 2 0, Op.register "A" 30 "cold" 1 false "t",
          Op.register "B" 30 "cold" 1 false "t", Op.discharge 1,
          Op.register "C" 30 "cold" 1 false "t"]).patientRecords 2).map
        (fun p => (p.status, p.assignedBed)) = some ("Allocated", 2) ∧
      (regGet (runOps [Op.configure 2 0, Op.register "A" 30 "cold" 1 false "t",
          Op.register "B" 30 "cold" 1 false "t", Op.discharge 1,
          Op.register "C" 30 "cold" 1 false "t"]).patientRecords 3).map
        (fun p => (p.status, p.assignedBed)) = some ("Allocated", 2) := by
  decide

/-!
CSV parser lemmas (for claim C10)
-/

theorem parseAux_cons_other (c : Char) (rest : List Char) (inQ : Bool) (cur : List Char)
    (out : List (List Char)) (hq : c ≠ '"') :
    parseAux (c :: rest) inQ cur out =
      if c = ',' ∧ inQ = false then parseAux rest inQ [] (out ++ [cur])
      else parseAux rest inQ (cur ++ [c]) out := by
  simp [parseAux, hq]

theorem parseAux_quote_open (rest : List Char) (cur : List Char) (out : List (List Char)) :
    parseAux ('"' :: rest) false cur out = parseAux rest true cur out := by
  simp [parseAux]

theorem parseAux_quote_pair (rest2 : List Char) (cur : List Char) (out : List (List Char)) :
    parseAux ('"' :: '"' :: rest2) true cur out = parseAux rest2 true (cur ++ ['"']) out := rfl

theorem parseAux_quote_close (rest : List Char) (cur : List Char) (out : List (List Char))
    (h : rest.head? ≠ some '"') :
    parseAux ('"' :: rest) true cur out = parseAux rest false cur out := by
  cases rest with
  | nil => rfl
  | cons c2 r =>
    have hc2 : c2 ≠ '"' := by simpa using h
    simp [parseAux, hc2]

theorem consumesTo_bare (s : List Char) (hs : ∀ c ∈ s, c ≠ '"' ∧ c ≠ ',') :
    ConsumesTo s s := by
  induction s with
  | nil => intro t cur out ht; simp
  | cons c rest ih =>
    intro t cur out ht
    obtain ⟨hq, hc⟩ := hs c (by simp)
    have hrest : ∀ x ∈ rest, x ≠ '"' ∧ x ≠ ',' := fun x hx => hs x (by simp [hx])
    rw [List.cons_append, parseAux_cons_other c _ _ _ _ hq, if_neg (by simp [hc])]
    rw [ih hrest t (cur ++ [c]) out ht]
    simp

theorem parseAux_escape_inner (s t cur : List Char) (out : List (List Char))
    (ht : t.head? ≠ some '"') :
    parseAux (escChars s ++ ('"' :: t)) true cur out = parseAux t false (cur ++ s) out := by
  induction s generalizing cur with
  | nil => simpa using parseAux_quote_close t cur out ht
  | cons c rest ih =>
    by_cases hq : c = '"'
    · subst hq
      rw [show escChars ('"' :: rest) = '"' :: '"' :: escChars rest from by simp [escChars]]
      rw [List.cons_append, List.cons_append, parseAux_quote_pair, ih]
      simp
    · rw [show escChars (c :: rest) = c :: escChars rest from by simp [escChars, hq]]
      rw [List.cons_append, parseAux_cons_other c _ _ _ _ hq, if_neg (by simp), ih]
      simp

theorem consumesTo_quoted (s : List Char) : ConsumesTo ('"' :: (escChars s ++ ['"'])) s := by
  intro t cur out ht
  rw [List.cons_append, parseAux_quote_open, List.append_assoc]
  exact parseAux_escape_inner s t cur out ht

theorem escChars_eq_self (s : List Char) (h : ∀ c ∈ s, c ≠ '"') : escChars s = s := by
  induction s with
  | nil => rfl
  | cons c rest ih =>
    simp [escChars, h c (by simp), ih fun x hx => h x (by simp [hx])]

theorem consumesTo_quoted_plain (s : List Char) (h : ∀ c ∈ s, c ≠ '"') :
    ConsumesTo ('"' :: (s ++ ['"'])) s := by
  have hq := consumesTo_quoted s
  rwa [escChars_eq_self s h] at hq

/-- Consuming a comma-separated sequence of fields, each of which
`ConsumesTo` its decoded value, pushes exactly the decoded values. -/
theorem parseAux_fields (rest : List (List Char × List Char)) :
    ∀ (first : List Char × List Char) (out : List (List Char)),
      (∀ pr ∈ first :: rest, ConsumesTo pr.fst pr.snd) →
      parseAux (first.fst ++ (rest.map (fun pr => ',' :: pr.fst)).flatten) false [] out =
        out ++ (first :: rest).map Prod.snd := by
  induction rest with
  | nil =>
    intro first out hc
    have h0 := hc first (by simp)
    simpa [parseAux] using h0 [] [] out (by simp)
  | cons pr2 rest2 ih =>
    intro first out hc
    have h0 := hc first (by simp)
    have hstep := h0 (',' :: (pr2.fst ++ (rest2.map (fun pr => ',' :: pr.fst)).flatten)) [] out
      (by simp)
    have hrec := ih pr2 (out ++ [first.snd]) (fun pr hpr => hc pr (List.mem_cons_of_mem _ hpr))
    calc parseAux (first.fst ++ ((pr2 :: rest2).map (fun pr => ',' :: pr.fst)).flatten)
          false [] out
        = parseAux
            (first.fst ++ (',' :: (pr2.fst ++ (rest2.map (fun pr => ',' :: pr.fst)).flatten)))
            false [] out := by simp
      _ = parseAux (',' :: (pr2.fst ++ (rest2.map (fun pr => ',' :: pr.fst)).flatten))
            false first.snd out := by simpa using hstep
      _ = parseAux (pr2.fst ++ (rest2.map (fun pr => ',' :: pr.fst)).flatten)
            false [] (out ++ [first.snd]) := by
          rw [parseAux_cons_other ',' _ _ _ _ (by decide), if_pos (by simp)]
      _ = (out ++ [first.snd]) ++ ((pr2 :: rest2).map Prod.snd) := hrec
      _ = out ++ ((first :: pr2 :: rest2).map Prod.snd) := by simp

theorem digitsToNat_append (a : List Char) (c : Char) :
    digitsToNat (a ++ [c]) = digitsToNat a * 10 + (c.toNat - 48) := by
  simp [digitsToNat, List.foldl_append]

theorem natDigitsGo_spec (fuel : Nat) :
    ∀ n, n < fuel →
      digitsToNat (natDigitsGo fuel n) = n ∧
        natDigitsGo fuel n ≠ [] ∧
        ∀ c ∈ natDigitsGo fuel n, isDig c = true := by
  induction fuel with
  | zero => intro n hn; omega
  | succ f ih =>
    intro n hn
    by_cases h10 : n < 10
    · refine ⟨?_, by simp [natDigitsGo, h10], ?_⟩
      · simp only [natDigitsGo, h10, if_true, if_pos]
        simp [digitsToNat]
        interval_cases n <;> decide
      · simp only [natDigitsGo, h10, if_true, if_pos, List.mem_singleton]
        rintro c rfl
        interval_cases n <;> decide
    · have hdiv : n / 10 < f := by omega
      obtain ⟨hval, hne, hdig⟩ := ih (n / 10) hdiv
      have hgo : natDigitsGo (f + 1) n = natDigitsGo f (n / 10) ++ [Nat.digitChar (n % 10)] := by
        simp [natDigitsGo, h10]
      have hm : n % 10 < 10 := Nat.mod_lt _ (by omega)
      refine ⟨?_, by simp [hgo], ?_⟩
      · rw [hgo, digitsToNat_append, hval]
        have hdc : (Nat.digitChar (n % 10)).toNat - 48 = n % 10 := by
          interval_cases hmm : n % 10 <;> decide
        rw [hdc]
        omega
      · intro c hc
        rw [hgo] at hc
        rcases List.mem_append.mp hc with hc2 | hc2
        · exact hdig c hc2
        · rw [List.mem_singleton] at hc2
          subst hc2
          interval_cases hmm : n % 10 <;> decide

theorem natDigits_spec (n : Nat) :
    digitsToNat (natDigits n) = n ∧ natDigits n ≠ [] ∧ ∀ c ∈ natDigits n, isDig c = true :=
  natDigitsGo_spec (n + 1) n (by omega)

theorem isDig_props (c : Char) (h : isDig c = true) : c ≠ '"' ∧ c ≠ ',' ∧ c ≠ '-' := by
  refine ⟨?_, ?_, ?_⟩ <;> rintro rfl <;> exact absurd h (by decide)

theorem takeWhile_all (p : Char → Bool) (l : List Char) (h : ∀ c ∈ l, p c = true) :
    l.takeWhile p = l := by
  induction l with
  | nil => rfl
  | cons c rest ih =>
    simp [List.takeWhile, h c (by simp), ih fun x hx => h x (by simp [hx])]

theorem parseLeadingNat_natDigits (n : Nat) : parseLeadingNat (natDigits n) = some n := by
  obtain ⟨hval, hne, hdig⟩ := natDigits_spec n
  simp [parseLeadingNat, takeWhile_all isDig _ hdig, hne, hval]

theorem parseIntJS_intStr (i : Int) : parseIntJS (intStr i) = some i := by
  by_cases hi : i < 0
  · have habs : ((i.natAbs : Nat) : Int) = -i := by omega
    rw [show intStr i = String.mk ('-' :: natDigits i.natAbs) from by simp [intStr, hi]]
    simp [parseIntJS, parseLeadingNat_natDigits, habs]
  · have habs : ((i.natAbs : Nat) : Int) = i := by omega
    rw [show intStr i = String.mk (natDigits i.natAbs) from by simp [intStr, hi]]
    obtain ⟨hval, hne, hdig⟩ := natDigits_spec i.natAbs
    obtain ⟨c, cs, hcons⟩ := List.exists_cons_of_ne_nil hne
    have hcdig : isDig c = true := hdig c (by rw [hcons]; simp)
    have hcne : c ≠ '-' := (isDig_props c hcdig).2.2
    have hval2 : digitsToNat (c :: cs) = i.natAbs := hcons ▸ hval
    have hdig2 : ∀ x ∈ c :: cs, isDig x = true := hcons ▸ hdig
    rw [hcons]
    simp [parseIntJS, hcne, parseLeadingNat, takeWhile_all isDig _ hdig2, hval2, habs]

theorem intercalate_go_data (sep : String) (l : List String) :
    ∀ acc : String, (String.intercalate.go acc sep l).data =
      acc.data ++ (l.map (fun s2 => sep.data ++ s2.data)).flatten := by
  induction l with
  | nil => intro acc; simp [String.intercalate.go]
  | cons a as ih =>
    intro acc
    simp [String.intercalate.go, ih, List.append_assoc]

theorem intercalate_data (sep : String) (a : String) (l : List String) :
    (String.intercalate sep (a :: l)).data =
      a.data ++ (l.map (fun s2 => sep.data ++ s2.data)).flatten := by
  simp [String.intercalate, intercalate_go_data]

theorem unescChars_eq_self (l : List Char) (h : hasDQ l = false) : unescChars l = l := by
  induction l with
  | nil => rfl
  | cons c rest ih =>
    by_cases hq : c = '"'
    · subst hq
      cases rest with
      | nil => rfl
      | cons c2 r2 =>
        by_cases hq2 : c2 = '"'
        · subst hq2
          simp [hasDQ] at h
        · rw [show unescChars ('"' :: c2 :: r2) = '"' :: unescChars (c2 :: r2) from by
            simp [unescChars, hq2]]
          rw [ih (by simpa [hasDQ, hq2] using h)]
    · rw [show unescChars (c :: rest) = c :: unescChars rest from by simp [unescChars, hq]]
      rw [ih (by simpa [hasDQ, hq] using h)]

theorem string_mk_data (s : String) : String.mk s.data = s := rfl

theorem intStr_chars (i : Int) : ∀ c ∈ (intStr i).data, c ≠ '"' ∧ c ≠ ',' := by
  intro c hc
  obtain ⟨hval, hne, hdig⟩ := natDigits_spec i.natAbs
  by_cases hi : i < 0
  · rw [show intStr i = String.mk ('-' :: natDigits i.natAbs) from by simp [intStr, hi]] at hc
    simp at hc
    rcases hc with rfl | hc
    · exact ⟨by decide, by decide⟩
    · have hd := hdig c hc
      exact ⟨(isDig_props c hd).1, (isDig_props c hd).2.1⟩
  · rw [show intStr i = String.mk (natDigits i.natAbs) from by simp [intStr, hi]] at hc
    simp at hc
    have hd := hdig c hc
    exact ⟨(isDig_props c hd).1, (isDig_props c hd).2.1⟩

theorem hasDQ_eq_false_of_no_quote (l : List Char) (h : ∀ c ∈ l, c ≠ '"') :
    hasDQ l = false := by
  induction l with
  | nil => rfl
  | cons c rest ih =>
    have hc := h c (by simp)
    rw [show hasDQ (c :: rest) = hasDQ rest from by simp [hasDQ, hc]]
    exact ih fun x hx => h x (by simp [hx])

theorem quoteWrap_escape_data (s : String) :
    (quoteWrap (escapeCSV s)).data = '"' :: (escChars s.data ++ ['"']) := by
  simp [quoteWrap, escapeCSV]

theorem quoteWrap_data (s : String) :
    (quoteWrap s).data = '"' :: (s.data ++ ['"']) := by
  simp [quoteWrap]

theorem parseCSVLine_patientToCSV (p : Patient)
    (hstat : ∀ c ∈ p.status.data, c ≠ '"' ∧ c ≠ ',')
    (hreg : ∀ c ∈ p.registrationTime.data, c ≠ '"') :
    parseCSVLine (patientToCSV p) =
      [intStr p.id, p.name, intStr p.age, p.complaint, intStr p.severity, p.status,
        intStr p.assignedBed, if p.requiresVentilator then "1" else "0",
        intStr p.assignedVentilator, intStr p.enqueuedSequence, p.registrationTime,
        intStr p.treatmentDurationMs, p.prescription] := by
  have hfields := parseAux_fields
    [((quoteWrap (escapeCSV p.name)).data, p.name.data),
     ((intStr p.age).data, (intStr p.age).data),
     ((quoteWrap (escapeCSV p.complaint)).data, p.complaint.data),
     ((intStr p.severity).data, (intStr p.severity).data),
     (p.status.data, p.status.data),
     ((intStr p.assignedBed).data, (intStr p.assignedBed).data),
     ((if p.requiresVentilator then ("1" : String) else "0").data,
       (if p.requiresVentilator then ("1" : String) else "0").data),
     ((intStr p.assignedVentilator).data, (intStr p.assignedVentilator).data),
     ((intStr p.enqueuedSequence).data, (intStr p.enqueuedSequence).data),
     ((quoteWrap p.registrationTime).data, p.registrationTime.data),
     ((intStr p.treatmentDurationMs).data, (intStr p.treatmentDurationMs).data),
     ((quoteWrap (escapeCSV p.prescription)).data, p.prescription.data)]
    ((intStr p.id).data, (intStr p.id).data) []
    (by
      intro pr hpr
      simp only [List.mem_cons, List.not_mem_nil, or_false] at hpr
      rcases hpr with rfl | rfl | rfl | rfl | rfl | rfl | rfl | rfl | rfl | rfl | rfl | rfl | rfl
      · exact consumesTo_bare _ (intStr_chars p.id)
      · rw [show ((quoteWrap (escapeCSV p.name)).data, p.name.data).fst =
            '"' :: (escChars p.name.data ++ ['"']) from quoteWrap_escape_data p.name]
        exact consumesTo_quoted p.name.data
      · exact consumesTo_bare _ (intStr_chars p.age)
      · rw [show ((quoteWrap (escapeCSV p.complaint)).data, p.complaint.data).fst =
            '"' :: (escChars p.complaint.data ++ ['"']) from quoteWrap_escape_data p.complaint]
        exact consumesTo_quoted p.complaint.data
      · exact consumesTo_bare _ (intStr_chars p.severity)
      · exact consumesTo_bare _ hstat
      · exact consumesTo_bare _ (intStr_chars p.assignedBed)
      · cases hrv : p.requiresVentilator <;> simp only [hrv, if_true, if_false] <;>
          exact consumesTo_bare _ (by decide)
      · exact consumesTo_bare _ (intStr_chars p.assignedVentilator)
      · exact consumesTo_bare _ (intStr_chars p.enqueuedSequence)
      · rw [show ((quoteWrap p.registrationTime).data, p.registrationTime.data).fst =
            '"' :: (p.registrationTime.data ++ ['"']) from quoteWrap_data p.registrationTime]
        exact consumesTo_quoted_plain p.registrationTime.data hreg
      · exact consumesTo_bare _ (intStr_chars p.treatmentDurationMs)
      · rw [show ((quoteWrap (escapeCSV p.prescription)).data, p.prescription.data).fst =
            '"' :: (escChars p.prescription.data ++ ['"'])
            from quoteWrap_escape_data p.prescription]
        exact consumesTo_quoted p.prescription.data)
  have hdata : (patientToCSV p).data =
      (intStr p.id).data ++
        (([((quoteWrap (escapeCSV p.name)).data, p.name.data),
           ((intStr p.age).data, (intStr p.age).data),
           ((quoteWrap (escapeCSV p.complaint)).data, p.complaint.data),
           ((intStr p.severity).data, (intStr p.severity).data),
           (p.status.data, p.status.data),
           ((intStr p.assignedBed).data, (intStr p.assignedBed).data),
           ((if p.requiresVentilator then ("1" : String) else "0").data,
             (if p.requiresVentilator then ("1" : String) else "0").data),
           ((intStr p.assignedVentilator).data, (intStr p.assignedVentilator).data),
           ((intStr p.enqueuedSequence).data, (intStr p.enqueuedSequence).data),
           ((quoteWrap p.registrationTime).data, p.registrationTime.data),
           ((intStr p.treatmentDurationMs).data, (intStr p.treatmentDurationMs).data),
           ((quoteWrap (escapeCSV p.prescription)).data,
             p.prescription.data)].map (fun pr => ',' :: pr.fst)).flatten) := by
    simp [patientToCSV, intercalate_data]
  unfold parseCSVLine
  rw [hdata, hfields]
  simp [string_mk_data]

/-!
Claim C10 — CSV round trip (corrected)
-/

/-- C10, counterexample: `csvBadPatient` has no newline in any string field,
yet the round trip loses characters — `parseCSVLine` already collapses the
doubled quotes that `escapeCSV` wrote, and `patientFromCSVLine` then applies
`unescapeCSV` a second time, so the name `a""b` comes back as `a"b`. -/
theorem c10_counterexample :
    patientFromCSVLine (patientToCSV csvBadPatient) ≠ some csvBadPatient := by
  decide

/-- C10, amended: the CSV round trip recovers the record field for field
provided additionally that name, complaint and prescription contain no two
consecutive double-quote characters, the registration time contains no
double quote at all (the source writes it unescaped), the status string —
written unquoted — contains no quote or comma, and the severity is one of the
three tiers 1, 2, 3 (as every record the program builds satisfies). -/
theorem c10_csv_round_trip (p : Patient)
    (hname : hasDQ p.name.data = false)
    (hcomp : hasDQ p.complaint.data = false)
    (hpres : hasDQ p.prescription.data = false)
    (hreg : ∀ c ∈ p.registrationTime.data, c ≠ '"')
    (hstat : ∀ c ∈ p.status.data, c ≠ '"' ∧ c ≠ ',')
    (hsev : p.severity = 1 ∨ p.severity = 2 ∨ p.severity = 3)
    (hnameNL : ∀ c ∈ p.name.data, c ≠ '\n')
    (hcompNL : ∀ c ∈ p.complaint.data, c ≠ '\n')
    (hpresNL : ∀ c ∈ p.prescription.data, c ≠ '\n')
    (hregNL : ∀ c ∈ p.registrationTime.data, c ≠ '\n') :
    patientFromCSVLine (patientToCSV p) = some p := by
  have hfieldsEq := parseCSVLine_patientToCSV p hstat hreg
  have hunName : unescapeCSV p.name = p.name := by
    unfold unescapeCSV
    rw [unescChars_eq_self _ hname, string_mk_data]
  have hunComp : unescapeCSV p.complaint = p.complaint := by
    unfold unescapeCSV
    rw [unescChars_eq_self _ hcomp, string_mk_data]
  have hunPres : unescapeCSV p.prescription = p.prescription := by
    unfold unescapeCSV
    rw [unescChars_eq_self _ hpres, string_mk_data]
  have hunReg : unescapeCSV p.registrationTime = p.registrationTime := by
    unfold unescapeCSV
    rw [unescChars_eq_self _ (hasDQ_eq_false_of_no_quote _ hreg), string_mk_data]
  have hsev2 : intToSeverity p.severity = p.severity := by
    rcases hsev with h | h | h <;> rw [h] <;> decide
  have hflag0 : parseIntJS "0" = some 0 := by decide
  have hflag1 : parseIntJS "1" = some 1 := by decide
  cases hrv : p.requiresVentilator <;>
    simp [patientFromCSVLine, hfieldsEq, hrv, parseIntJS_intStr, hunName, hunComp, hunPres,
      hunReg, hsev2, hflag0, hflag1, List.getD] <;>
    rw [← hrv]

theorem c10_csv_round_trip_witness :
    patientFromCSVLine (patientToCSV csvGoodPatient) = some csvGoodPatient :=
  c10_csv_round_trip csvGoodPatient (by decide) (by decide) (by decide) (by decide) (by decide)
    (by decide) (by decide) (by decide) (by decide) (by decide)
